import Mathlib

/-!
Shallow embedding of the platformer movement core in `game.py`
(`check_collision`, `Actor.move_x`, `Actor.move_y`, `Player.apply_gravity`,
`Player.jump`) together with proofs of its specified properties.

Real-valued quantities (positions, remainders, velocities, move amounts)
are modelled as rationals.  The pyxel tilemap is external; `check_collision`
only consumes `tilemap.get`, modelled as a function `ℤ → ℤ → ℤ` returning
tile ids.  Python's floor division `//` and builtin `round`
(round-half-to-even) are modelled explicitly below.
-/

namespace Platformer

/-- `GRAVITY = 0.2` from game.py. -/
def GRAVITY : ℚ := 1/5

/-- `JUMP_POWER = 2` from game.py. -/
def JUMP_POWER : ℚ := 2

/-- `TILE_SIZE = 8` from game.py. -/
def TILE_SIZE : ℚ := 8

/-- `EMPTY_TILE = 0` from game.py. -/
def EMPTY_TILE : ℤ := 0

/-- `WALL_TILES = [2, 3, 4, 5]` from game.py. -/
def WALL_TILES : List ℤ := [2, 3, 4, 5]

/-- The external tilemap: `tilemap.get(x, y)` as a function from grid
coordinates to tile ids. -/
abbrev Tilemap : Type := ℤ → ℤ → ℤ

/-- Python floor division `q // 1` resp. the integer part used by
`int(x // TILE_SIZE)`: the floor of a rational, computed on `num/den`. -/
def pyFloor (q : ℚ) : ℤ := q.num / (q.den : ℤ)

/-- Python's builtin `round` on an exact rational: round half to even. -/
def pyRound (q : ℚ) : ℤ :=
  if q - (pyFloor q : ℚ) < 1/2 then pyFloor q
  else if 1/2 < q - (pyFloor q : ℚ) then pyFloor q + 1
  else if pyFloor q % 2 = 0 then pyFloor q else pyFloor q + 1

/-- The integers from `a` to `b` inclusive, as Python's `range(a, b + 1)`. -/
def intRange (a b : ℤ) : List ℤ :=
  (List.range (b + 1 - a).toNat).map (fun (k : ℕ) => a + (k : ℤ))

/-- `check_collision(x, y)` from game.py: true iff the tile-sized box at
`(x, y)` covers a grid cell holding a wall tile.  The scanned columns are
`int(x // TILE_SIZE) .. int((x + TILE_SIZE - 1) // TILE_SIZE)` and
symmetrically for rows, both ends inclusive. -/
def check_collision (tm : Tilemap) (x y : ℚ) : Bool :=
  let tx0 := pyFloor (x / TILE_SIZE)
  let ty0 := pyFloor (y / TILE_SIZE)
  let tx1 := pyFloor ((x + TILE_SIZE - 1) / TILE_SIZE)
  let ty1 := pyFloor ((y + TILE_SIZE - 1) / TILE_SIZE)
  (intRange ty0 ty1).any fun ty =>
    (intRange tx0 tx1).any fun tx => decide (tm tx ty ∈ WALL_TILES)

/-- The actor state of game.py: position and per-axis sub-pixel remainders. -/
structure Actor where
  x : ℚ
  y : ℚ
  x_remainder : ℚ
  y_remainder : ℚ
deriving DecidableEq

/-- `Actor.__init__(x, y)`: both remainders start at zero. -/
def Actor.init (x y : ℚ) : Actor := ⟨x, y, 0, 0⟩

/-- The pixel-stepping loop of `move_x`: while pixels remain, probe one
pixel ahead in direction `sign`; on a wall invoke the callback (recorded as
the `Bool`) and stop, otherwise advance one pixel.  The loop in game.py
decrements `move` by `sign` until it reaches `0`, which is `move.natAbs`
iterations; the fuel argument is that count. -/
def moveLoopX (tm : Tilemap) (y : ℚ) (sign : ℤ) : Nat → ℚ → ℚ × Bool
  | 0, x => (x, false)
  | Nat.succ n, x =>
    if check_collision tm (x + (sign : ℚ)) y then (x, true)
    else moveLoopX tm y sign n (x + (sign : ℚ))

/-- The pixel-stepping loop of `move_y`, symmetric to `moveLoopX`. -/
def moveLoopY (tm : Tilemap) (x : ℚ) (sign : ℤ) : Nat → ℚ → ℚ × Bool
  | 0, y => (y, false)
  | Nat.succ n, y =>
    if check_collision tm x (y + (sign : ℚ)) then (y, true)
    else moveLoopY tm x sign n (y + (sign : ℚ))

/-- `Actor.move_x(amount, on_collision)` from game.py.  The returned `Bool`
records whether `on_collision` was invoked. -/
def Actor.move_x (tm : Tilemap) (a : Actor) (amount : ℚ) : Actor × Bool :=
  let rem := a.x_remainder + amount
  let move := pyRound rem
  if move = 0 then ({ a with x_remainder := rem }, false)
  else
    let sign : ℤ := if 0 < move then 1 else -1
    let res := moveLoopX tm a.y sign move.natAbs a.x
    ({ a with x := res.1, x_remainder := rem - (move : ℚ) }, res.2)

/-- `Actor.move_y(amount, on_collision)` from game.py. -/
def Actor.move_y (tm : Tilemap) (a : Actor) (amount : ℚ) : Actor × Bool :=
  let rem := a.y_remainder + amount
  let move := pyRound rem
  if move = 0 then ({ a with y_remainder := rem }, false)
  else
    let sign : ℤ := if 0 < move then 1 else -1
    let res := moveLoopY tm a.x sign move.natAbs a.y
    ({ a with y := res.1, y_remainder := rem - (move : ℚ) }, res.2)

/-- One axis-move call, for describing sequences of `move_x`/`move_y`. -/
inductive MoveCall where
  | mx (amount : ℚ)
  | my (amount : ℚ)

/-- Run a sequence of `move_x`/`move_y` calls on an actor. -/
def runMoves (tm : Tilemap) (a : Actor) : List MoveCall → Actor
  | [] => a
  | MoveCall.mx q :: rest => runMoves tm (a.move_x tm q).1 rest
  | MoveCall.my q :: rest => runMoves tm (a.move_y tm q).1 rest

/-- The player state of game.py: an actor plus velocity. -/
structure Player where
  x : ℚ
  y : ℚ
  x_remainder : ℚ
  y_remainder : ℚ
  vx : ℚ
  vy : ℚ
deriving DecidableEq

/-- `Player.apply_gravity` from game.py: start from `GRAVITY`; if rising
(`vy < 0`) scale by `0.7`, and additionally by `0.6` while the jump key is
held; add the result to `vy`.  The float literals `0.7` and `0.6` are the
exact rationals `7/10` and `3/5` here. -/
def Player.apply_gravity (held : Bool) (p : Player) : Player :=
  let g0 : ℚ := GRAVITY
  let g1 : ℚ :=
    if p.vy < 0 then
      let g := g0 * (7/10)
      if held then g * (3/5) else g
    else g0
  { p with vy := p.vy + g1 }

/-- `Player.jump` from game.py: probe one tile-height below; if solid,
set `vy = -JUMP_POWER`, otherwise do nothing. -/
def Player.jump (tm : Tilemap) (p : Player) : Player :=
  if check_collision tm p.x (p.y + TILE_SIZE) then { p with vy := -JUMP_POWER }
  else p

/-- The spec's wording of the collision probe, written independently of the
code: some grid cell `(col, row)` with
`⌊x / TILE_SIZE⌋ ≤ col ≤ ⌊(x + TILE_SIZE - 1) / TILE_SIZE⌋` and the
symmetric row range holds a tile id classified as solid. -/
def overlaps_solid_spec (tm : Tilemap) (x y : ℚ) : Prop :=
  ∃ col row : ℤ,
    ⌊x / TILE_SIZE⌋ ≤ col ∧ col ≤ ⌊(x + TILE_SIZE - 1) / TILE_SIZE⌋ ∧
    ⌊y / TILE_SIZE⌋ ≤ row ∧ row ≤ ⌊(y + TILE_SIZE - 1) / TILE_SIZE⌋ ∧
    tm col row ∈ WALL_TILES

/-- A tilemap with no wall tiles anywhere. -/
def freeMap : Tilemap := fun _ _ => EMPTY_TILE

/-- A tilemap whose grid column 5 (world x from 40 to 47) is a solid wall. -/
def wallCol5Map : Tilemap := fun tx _ => if tx = 5 then 2 else EMPTY_TILE

/-- A tilemap whose grid row 1 (world y from 8 to 15) is a solid floor. -/
def floorRow1Map : Tilemap := fun _ ty => if ty = 1 then 2 else EMPTY_TILE

/-- A tilemap that is wall everywhere. -/
def allWallMap : Tilemap := fun _ _ => 2

/- ### Basic lemmas on the floor and rounding primitives -/

theorem pyFloor_eq_floor (q : ℚ) : pyFloor q = ⌊q⌋ := Rat.floor_def.symm

theorem pyFloor_le (q : ℚ) : (pyFloor q : ℚ) ≤ q := by
  rw [pyFloor_eq_floor]; exact Int.floor_le q

theorem lt_pyFloor_add_one (q : ℚ) : q < (pyFloor q : ℚ) + 1 := by
  rw [pyFloor_eq_floor]; exact Int.lt_floor_add_one q

/-- Rounding half to even leaves a leftover of magnitude at most one half. -/
theorem pyRound_leftover (q : ℚ) :
    -(1/2) ≤ q - (pyRound q : ℚ) ∧ q - (pyRound q : ℚ) ≤ 1/2 := by
  have h1 := pyFloor_le q
  have h2 := lt_pyFloor_add_one q
  unfold pyRound
  split_ifs with ha hb hc <;> constructor <;> push_cast <;> linarith

/-- `pyRound q = 0` exactly when `q` lies in the closed interval
`[-1/2, 1/2]`. -/
theorem pyRound_eq_zero_iff (q : ℚ) :
    pyRound q = 0 ↔ -(1/2) ≤ q ∧ q ≤ 1/2 := by
  constructor
  · intro h
    have := pyRound_leftover q
    rw [h] at this
    push_cast at this
    constructor <;> linarith [this.1, this.2]
  · rintro ⟨hl, hr⟩
    rcases le_or_lt 0 q with hq | hq
    · have hf : pyFloor q = 0 := by
        rw [pyFloor_eq_floor, Int.floor_eq_iff]
        push_cast
        exact ⟨by linarith, by linarith⟩
      unfold pyRound
      rw [hf]
      push_cast
      split_ifs with h1 h2
      · rfl
      · exfalso; linarith
      · rfl
    · have hf : pyFloor q = -1 := by
        rw [pyFloor_eq_floor, Int.floor_eq_iff]
        push_cast
        exact ⟨by linarith, by linarith⟩
      unfold pyRound
      rw [hf]
      push_cast
      split_ifs with h1 h2
      · exfalso; linarith
      · norm_num
      · norm_num

theorem mem_intRange {a b z : ℤ} : z ∈ intRange a b ↔ a ≤ z ∧ z ≤ b := by
  unfold intRange
  constructor
  · intro h
    obtain ⟨k, hk, hz⟩ := List.mem_map.mp h
    rw [List.mem_range] at hk
    omega
  · intro h
    refine List.mem_map.mpr ⟨(z - a).toNat, ?_, ?_⟩
    · rw [List.mem_range]
      omega
    · omega

/- ### Characterization of the move operations -/

theorem move_x_eq_of_round_zero (tm : Tilemap) (a : Actor) (amount : ℚ)
    (h : pyRound (a.x_remainder + amount) = 0) :
    a.move_x tm amount = ({ a with x_remainder := a.x_remainder + amount }, false) := by
  simp only [Actor.move_x]
  rw [if_pos h]

theorem move_x_eq_of_round_ne (tm : Tilemap) (a : Actor) (amount : ℚ)
    (h : pyRound (a.x_remainder + amount) ≠ 0) :
    a.move_x tm amount =
      ({ a with
          x := (moveLoopX tm a.y (if 0 < pyRound (a.x_remainder + amount) then 1 else -1)
              (pyRound (a.x_remainder + amount)).natAbs a.x).1,
          x_remainder := a.x_remainder + amount - (pyRound (a.x_remainder + amount) : ℚ) },
       (moveLoopX tm a.y (if 0 < pyRound (a.x_remainder + amount) then 1 else -1)
          (pyRound (a.x_remainder + amount)).natAbs a.x).2) := by
  simp only [Actor.move_x]
  rw [if_neg h]

theorem move_y_eq_of_round_zero (tm : Tilemap) (a : Actor) (amount : ℚ)
    (h : pyRound (a.y_remainder + amount) = 0) :
    a.move_y tm amount = ({ a with y_remainder := a.y_remainder + amount }, false) := by
  simp only [Actor.move_y]
  rw [if_pos h]

theorem move_y_eq_of_round_ne (tm : Tilemap) (a : Actor) (amount : ℚ)
    (h : pyRound (a.y_remainder + amount) ≠ 0) :
    a.move_y tm amount =
      ({ a with
          y := (moveLoopY tm a.x (if 0 < pyRound (a.y_remainder + amount) then 1 else -1)
              (pyRound (a.y_remainder + amount)).natAbs a.y).1,
          y_remainder := a.y_remainder + amount - (pyRound (a.y_remainder + amount) : ℚ) },
       (moveLoopY tm a.x (if 0 < pyRound (a.y_remainder + amount) then 1 else -1)
          (pyRound (a.y_remainder + amount)).natAbs a.y).2) := by
  simp only [Actor.move_y]
  rw [if_neg h]

/-- `move_x` never touches the vertical fields. -/
theorem move_x_preserves_y (tm : Tilemap) (a : Actor) (amount : ℚ) :
    ((a.move_x tm amount).1).y = a.y ∧
    ((a.move_x tm amount).1).y_remainder = a.y_remainder := by
  by_cases h : pyRound (a.x_remainder + amount) = 0
  · rw [move_x_eq_of_round_zero tm a amount h]
    exact ⟨rfl, rfl⟩
  · rw [move_x_eq_of_round_ne tm a amount h]
    exact ⟨rfl, rfl⟩

/-- `move_y` never touches the horizontal fields. -/
theorem move_y_preserves_x (tm : Tilemap) (a : Actor) (amount : ℚ) :
    ((a.move_y tm amount).1).x = a.x ∧
    ((a.move_y tm amount).1).x_remainder = a.x_remainder := by
  by_cases h : pyRound (a.y_remainder + amount) = 0
  · rw [move_y_eq_of_round_zero tm a amount h]
    exact ⟨rfl, rfl⟩
  · rw [move_y_eq_of_round_ne tm a amount h]
    exact ⟨rfl, rfl⟩

/-- After any single `move_x` call the stored horizontal remainder lies in
`[-1/2, 1/2]`. -/
theorem move_x_remainder_bounds (tm : Tilemap) (a : Actor) (amount : ℚ) :
    -(1/2) ≤ ((a.move_x tm amount).1).x_remainder ∧
    ((a.move_x tm amount).1).x_remainder ≤ 1/2 := by
  by_cases h : pyRound (a.x_remainder + amount) = 0
  · rw [move_x_eq_of_round_zero tm a amount h]
    exact (pyRound_eq_zero_iff _).mp h
  · rw [move_x_eq_of_round_ne tm a amount h]
    exact pyRound_leftover _

/-- After any single `move_y` call the stored vertical remainder lies in
`[-1/2, 1/2]`. -/
theorem move_y_remainder_bounds (tm : Tilemap) (a : Actor) (amount : ℚ) :
    -(1/2) ≤ ((a.move_y tm amount).1).y_remainder ∧
    ((a.move_y tm amount).1).y_remainder ≤ 1/2 := by
  by_cases h : pyRound (a.y_remainder + amount) = 0
  · rw [move_y_eq_of_round_zero tm a amount h]
    exact (pyRound_eq_zero_iff _).mp h
  · rw [move_y_eq_of_round_ne tm a amount h]
    exact pyRound_leftover _

/-- Both remainders lie in `[-1/2, 1/2]` after every sequence of move calls
started from remainders in that interval. -/
theorem runMoves_remainder_bounds (tm : Tilemap) :
    ∀ (ms : List MoveCall) (a : Actor),
      -(1/2) ≤ a.x_remainder → a.x_remainder ≤ 1/2 →
      -(1/2) ≤ a.y_remainder → a.y_remainder ≤ 1/2 →
      (-(1/2) ≤ (runMoves tm a ms).x_remainder ∧
        (runMoves tm a ms).x_remainder ≤ 1/2) ∧
      (-(1/2) ≤ (runMoves tm a ms).y_remainder ∧
        (runMoves tm a ms).y_remainder ≤ 1/2) := by
  intro ms
  induction ms with
  | nil => intro a hx1 hx2 hy1 hy2; exact ⟨⟨hx1, hx2⟩, ⟨hy1, hy2⟩⟩
  | cons m rest ih =>
    intro a hx1 hx2 hy1 hy2
    cases m with
    | mx q =>
      have hx := move_x_remainder_bounds tm a q
      have hy := (move_x_preserves_y tm a q).2
      exact ih _ hx.1 hx.2 (hy ▸ hy1) (hy ▸ hy2)
    | my q =>
      have hy := move_y_remainder_bounds tm a q
      have hx := (move_y_preserves_x tm a q).2
      exact ih _ (hx ▸ hx1) (hx ▸ hx2) hy.1 hy.2

/- ### No-tunneling: the stepping loops preserve freedom from collision -/

theorem moveLoopX_no_collision (tm : Tilemap) (y : ℚ) (sign : ℤ) :
    ∀ (n : Nat) (x : ℚ), check_collision tm x y = false →
      check_collision tm (moveLoopX tm y sign n x).1 y = false := by
  intro n
  induction n with
  | zero => intro x h; simpa [moveLoopX] using h
  | succ n ih =>
    intro x h
    by_cases hc : check_collision tm (x + (sign : ℚ)) y = true
    · simp only [moveLoopX, hc, if_true]
      exact h
    · rw [Bool.not_eq_true] at hc
      simp only [moveLoopX, hc, Bool.false_eq_true, if_false]
      exact ih (x + (sign : ℚ)) hc

theorem moveLoopY_no_collision (tm : Tilemap) (x : ℚ) (sign : ℤ) :
    ∀ (n : Nat) (y : ℚ), check_collision tm x y = false →
      check_collision tm x (moveLoopY tm x sign n y).1 = false := by
  intro n
  induction n with
  | zero => intro y h; simpa [moveLoopY] using h
  | succ n ih =>
    intro y h
    by_cases hc : check_collision tm x (y + (sign : ℚ)) = true
    · simp only [moveLoopY, hc, if_true]
      exact h
    · rw [Bool.not_eq_true] at hc
      simp only [moveLoopY, hc, Bool.false_eq_true, if_false]
      exact ih (y + (sign : ℚ)) hc

/- ### Integer positions are preserved -/

theorem moveLoopX_int (tm : Tilemap) (y : ℚ) (sign : ℤ) :
    ∀ (n : Nat) (x : ℚ), (∃ i : ℤ, x = (i : ℚ)) →
      ∃ i : ℤ, (moveLoopX tm y sign n x).1 = (i : ℚ) := by
  intro n
  induction n with
  | zero => intro x h; simpa [moveLoopX] using h
  | succ n ih =>
    intro x h
    obtain ⟨i, rfl⟩ := h
    by_cases hc : check_collision tm ((i : ℚ) + (sign : ℚ)) y = true
    · simp only [moveLoopX, hc, if_true]
      exact ⟨i, rfl⟩
    · rw [Bool.not_eq_true] at hc
      simp only [moveLoopX, hc, Bool.false_eq_true, if_false]
      refine ih _ ⟨i + sign, ?_⟩
      push_cast
      ring

theorem moveLoopY_int (tm : Tilemap) (x : ℚ) (sign : ℤ) :
    ∀ (n : Nat) (y : ℚ), (∃ j : ℤ, y = (j : ℚ)) →
      ∃ j : ℤ, (moveLoopY tm x sign n y).1 = (j : ℚ) := by
  intro n
  induction n with
  | zero => intro y h; simpa [moveLoopY] using h
  | succ n ih =>
    intro y h
    obtain ⟨j, rfl⟩ := h
    by_cases hc : check_collision tm x ((j : ℚ) + (sign : ℚ)) = true
    · simp only [moveLoopY, hc, if_true]
      exact ⟨j, rfl⟩
    · rw [Bool.not_eq_true] at hc
      simp only [moveLoopY, hc, Bool.false_eq_true, if_false]
      refine ih _ ⟨j + sign, ?_⟩
      push_cast
      ring

theorem runMoves_int (tm : Tilemap) :
    ∀ (ms : List MoveCall) (a : Actor),
      (∃ i : ℤ, a.x = (i : ℚ)) → (∃ j : ℤ, a.y = (j : ℚ)) →
      (∃ i : ℤ, (runMoves tm a ms).x = (i : ℚ)) ∧
      (∃ j : ℤ, (runMoves tm a ms).y = (j : ℚ)) := by
  intro ms
  induction ms with
  | nil => intro a hx hy; exact ⟨hx, hy⟩
  | cons m rest ih =>
    intro a hx hy
    cases m with
    | mx q =>
      refine ih _ ?_ ?_
      · by_cases h : pyRound (a.x_remainder + q) = 0
        · rw [move_x_eq_of_round_zero tm a q h]
          exact hx
        · rw [move_x_eq_of_round_ne tm a q h]
          exact moveLoopX_int tm a.y _ _ a.x hx
      · rw [(move_x_preserves_y tm a q).1]
        exact hy
    | my q =>
      refine ih _ ?_ ?_
      · rw [(move_y_preserves_x tm a q).1]
        exact hx
      · by_cases h : pyRound (a.y_remainder + q) = 0
        · rw [move_y_eq_of_round_zero tm a q h]
          exact hy
        · rw [move_y_eq_of_round_ne tm a q h]
          exact moveLoopY_int tm a.x _ _ a.y hy

/- ### Unobstructed movement -/

theorem moveLoopX_free (tm : Tilemap) (y : ℚ) (sign : ℤ)
    (hfree : ∀ u v : ℚ, check_collision tm u v = false) :
    ∀ (n : Nat) (x : ℚ), moveLoopX tm y sign n x = (x + (n : ℚ) * (sign : ℚ), false) := by
  intro n
  induction n with
  | zero => intro x; simp [moveLoopX]
  | succ n ih =>
    intro x
    simp only [moveLoopX, hfree (x + (sign : ℚ)) y, Bool.false_eq_true, if_false]
    rw [ih (x + (sign : ℚ))]
    push_cast
    ring_nf

/-- The whole-pixel count times the step direction recovers the rounded
move amount. -/
theorem natAbs_mul_sign_cast (move : ℤ) :
    ((move.natAbs : ℚ)) * (((if 0 < move then 1 else -1 : ℤ)) : ℚ) = (move : ℚ) := by
  by_cases hpos : 0 < move
  · rw [if_pos hpos, Int.cast_one, mul_one, ← Int.cast_natCast (R := ℚ),
      (by omega : (move.natAbs : ℤ) = move)]
  · rw [if_neg hpos, ← Int.cast_natCast (R := ℚ),
      (by omega : (move.natAbs : ℤ) = -move)]
    push_cast
    ring

/-- In an unobstructed tilemap, a single `move_x` advances the position by
exactly the rounded whole-pixel amount. -/
theorem move_x_free (tm : Tilemap) (hfree : ∀ u v : ℚ, check_collision tm u v = false)
    (a : Actor) (amount : ℚ) :
    ((a.move_x tm amount).1).x = a.x + (pyRound (a.x_remainder + amount) : ℚ) := by
  by_cases h : pyRound (a.x_remainder + amount) = 0
  · rw [move_x_eq_of_round_zero tm a amount h, h]
    norm_num
  · rw [move_x_eq_of_round_ne tm a amount h]
    have hl := moveLoopX_free tm a.y
      (if 0 < pyRound (a.x_remainder + amount) then 1 else -1) hfree
      (pyRound (a.x_remainder + amount)).natAbs a.x
    rw [hl]
    dsimp only
    rw [natAbs_mul_sign_cast]

/- ### The collision probe against its specification -/

theorem check_collision_iff_spec (tm : Tilemap) (x y : ℚ) :
    check_collision tm x y = true ↔ overlaps_solid_spec tm x y := by
  unfold check_collision overlaps_solid_spec
  simp only [← pyFloor_eq_floor]
  rw [List.any_eq_true]
  constructor
  · rintro ⟨row, hrow, h⟩
    rw [List.any_eq_true] at h
    obtain ⟨col, hcol, hmem⟩ := h
    rw [mem_intRange] at hrow hcol
    exact ⟨col, row, hcol.1, hcol.2, hrow.1, hrow.2, of_decide_eq_true hmem⟩
  · rintro ⟨col, row, h1, h2, h3, h4, hw⟩
    refine ⟨row, mem_intRange.mpr ⟨h3, h4⟩, ?_⟩
    rw [List.any_eq_true]
    exact ⟨col, mem_intRange.mpr ⟨h1, h2⟩, decide_eq_true hw⟩

/-- The empty tilemap never collides. -/
theorem check_collision_freeMap (x y : ℚ) : check_collision freeMap x y = false := by
  simp [check_collision, freeMap, EMPTY_TILE, WALL_TILES]

/-- The scanned tile rectangle is never empty. -/
theorem floor_tile_le (w : ℚ) :
    ⌊w / TILE_SIZE⌋ ≤ ⌊(w + TILE_SIZE - 1) / TILE_SIZE⌋ := by
  apply Int.floor_le_floor
  have h : (0:ℚ) < TILE_SIZE := by norm_num [TILE_SIZE]
  have h1 : (1:ℚ) ≤ TILE_SIZE := by norm_num [TILE_SIZE]
  apply div_le_div_of_nonneg_right ?_ h.le
  linarith

/-- The all-wall tilemap always collides. -/
theorem check_collision_allWallMap (u v : ℚ) :
    check_collision allWallMap u v = true := by
  rw [check_collision_iff_spec]
  exact ⟨⌊u / TILE_SIZE⌋, ⌊v / TILE_SIZE⌋, le_refl _, floor_tile_le u,
    le_refl _, floor_tile_le v, by norm_num [allWallMap, WALL_TILES]⟩

/- ### Claim theorems -/

/-- **C1**: No tunneling: for every actor state whose tile-sized bounding box
does not overlap any solid tile, and for every move amount, after a call to
`move_x(amount, cb)` or `move_y(amount, cb)` the actor's bounding box at its
new position still does not overlap any solid tile: motion always stops at
the wall boundary, never inside or past a wall. -/
theorem C1_no_tunneling (tm : Tilemap) (a : Actor) (amount : ℚ)
    (h : check_collision tm a.x a.y = false) :
    check_collision tm ((a.move_x tm amount).1).x ((a.move_x tm amount).1).y = false ∧
    check_collision tm ((a.move_y tm amount).1).x ((a.move_y tm amount).1).y = false := by
  constructor
  · rw [(move_x_preserves_y tm a amount).1]
    by_cases hr : pyRound (a.x_remainder + amount) = 0
    · rw [move_x_eq_of_round_zero tm a amount hr]
      exact h
    · rw [move_x_eq_of_round_ne tm a amount hr]
      exact moveLoopX_no_collision tm a.y _ _ a.x h
  · rw [(move_y_preserves_x tm a amount).1]
    by_cases hr : pyRound (a.y_remainder + amount) = 0
    · rw [move_y_eq_of_round_zero tm a amount hr]
      exact h
    · rw [move_y_eq_of_round_ne tm a amount hr]
      exact moveLoopY_no_collision tm a.x _ _ a.y h

/-- Witness for C1: an actor one tile left of the wall at grid column 5,
moving right by 10 pixels, ends collision-free. -/
theorem C1_no_tunneling_witness :
    check_collision wallCol5Map (32 : ℚ) 0 = false ∧
    (check_collision wallCol5Map
        (((Actor.init 32 0).move_x wallCol5Map 10).1).x
        (((Actor.init 32 0).move_x wallCol5Map 10).1).y = false ∧
      check_collision wallCol5Map
        (((Actor.init 32 0).move_y wallCol5Map 10).1).x
        (((Actor.init 32 0).move_y wallCol5Map 10).1).y = false) :=
  ⟨by norm_num [check_collision, pyFloor, intRange, TILE_SIZE, wallCol5Map,
      EMPTY_TILE, List.range_succ, WALL_TILES],
   C1_no_tunneling wallCol5Map (Actor.init 32 0) 10
    (by norm_num [check_collision, pyFloor, intRange, TILE_SIZE, wallCol5Map,
      EMPTY_TILE, List.range_succ, WALL_TILES, Actor.init])⟩

/-- **C2**: Remainder invariant: for every sequence of `move_x`/`move_y`
calls with arbitrary amounts, starting from an actor with zero remainders,
after each call the stored `x_remainder` and `y_remainder` each lie
strictly within the open interval `(-1, 1)`. -/
theorem C2_remainder_invariant (tm : Tilemap) (x y : ℚ) (ms : List MoveCall) :
    (-1 < (runMoves tm (Actor.init x y) ms).x_remainder ∧
      (runMoves tm (Actor.init x y) ms).x_remainder < 1) ∧
    (-1 < (runMoves tm (Actor.init x y) ms).y_remainder ∧
      (runMoves tm (Actor.init x y) ms).y_remainder < 1) := by
  have h := runMoves_remainder_bounds tm ms (Actor.init x y)
    (by norm_num [Actor.init]) (by norm_num [Actor.init])
    (by norm_num [Actor.init]) (by norm_num [Actor.init])
  exact ⟨⟨by linarith [h.1.1], by linarith [h.1.2]⟩,
    ⟨by linarith [h.2.1], by linarith [h.2.2]⟩⟩

/-- **C9**: Implicit tightened remainder bound: after every sequence of
`move_x`/`move_y` calls started from zero remainders, each stored remainder
lies in the closed interval `[-1/2, 1/2]`, strictly tighter than the
documented `(-1, 1)`, because the whole-pixel step is computed with
round-half-to-even, which leaves a leftover of magnitude at most one
half. -/
theorem C9_remainder_half_bound (tm : Tilemap) (x y : ℚ) (ms : List MoveCall) :
    (-(1/2) ≤ (runMoves tm (Actor.init x y) ms).x_remainder ∧
      (runMoves tm (Actor.init x y) ms).x_remainder ≤ 1/2) ∧
    (-(1/2) ≤ (runMoves tm (Actor.init x y) ms).y_remainder ∧
      (runMoves tm (Actor.init x y) ms).y_remainder ≤ 1/2) :=
  runMoves_remainder_bounds tm ms (Actor.init x y)
    (by norm_num [Actor.init]) (by norm_num [Actor.init])
    (by norm_num [Actor.init]) (by norm_num [Actor.init])

/-- **C6**: Zero-delta idempotence: in any actor state arising from a
sequence of prior `move_x`/`move_y` calls (starting from zero remainders),
calling `move_x(0, cb)` never changes the actor's state and never invokes
the collision callback, so repeated zero-delta calls are no-ops. -/
theorem C6_zero_delta_idempotence (tm : Tilemap) (x y : ℚ) (ms : List MoveCall) :
    (runMoves tm (Actor.init x y) ms).move_x tm 0 =
      (runMoves tm (Actor.init x y) ms, false) := by
  have hb := (runMoves_remainder_bounds tm ms (Actor.init x y)
    (by norm_num [Actor.init]) (by norm_num [Actor.init])
    (by norm_num [Actor.init]) (by norm_num [Actor.init])).1
  have hz : pyRound ((runMoves tm (Actor.init x y) ms).x_remainder + 0) = 0 := by
    rw [add_zero]
    exact (pyRound_eq_zero_iff _).mpr ⟨hb.1, hb.2⟩
  rw [move_x_eq_of_round_zero tm _ 0 hz, add_zero]

/-- **C10**: Implicit integer-position preservation: `move_x` and `move_y`
mutate the position only in whole `±1` pixel increments, so an actor
constructed at integer coordinates has integer coordinates after every
sequence of move calls with arbitrary amounts. -/
theorem C10_integer_positions (tm : Tilemap) (i j : ℤ) (ms : List MoveCall) :
    (∃ i' : ℤ, (runMoves tm (Actor.init (i : ℚ) (j : ℚ)) ms).x = (i' : ℚ)) ∧
    (∃ j' : ℤ, (runMoves tm (Actor.init (i : ℚ) (j : ℚ)) ms).y = (j' : ℚ)) :=
  runMoves_int tm ms _ ⟨i, rfl⟩ ⟨j, rfl⟩

/-- **C3**: Collision halts motion and discards the rest of the step: for a
call whose rounded whole-pixel step is nonzero, if the collision probe at
the position offset by one pixel along the axis reports solid before all
pixels have been stepped, the callback is invoked (the loop returns `true`)
and the loop terminates immediately, discarding all remaining unstepped
pixels; the axis remainder keeps the value computed before stepping, and
the call reports exactly the loop's collision flag. -/
theorem C3_collision_halts (tm : Tilemap) (x y : ℚ) (sign : ℤ) (n : Nat)
    (a : Actor) (amount : ℚ) :
    (check_collision tm (x + (sign : ℚ)) y = true →
      moveLoopX tm y sign (n + 1) x = (x, true)) ∧
    (check_collision tm x (y + (sign : ℚ)) = true →
      moveLoopY tm x sign (n + 1) y = (y, true)) ∧
    (pyRound (a.x_remainder + amount) ≠ 0 →
      ((a.move_x tm amount).1).x_remainder =
        a.x_remainder + amount - (pyRound (a.x_remainder + amount) : ℚ) ∧
      (a.move_x tm amount).2 =
        (moveLoopX tm a.y (if 0 < pyRound (a.x_remainder + amount) then 1 else -1)
          (pyRound (a.x_remainder + amount)).natAbs a.x).2) ∧
    (pyRound (a.y_remainder + amount) ≠ 0 →
      ((a.move_y tm amount).1).y_remainder =
        a.y_remainder + amount - (pyRound (a.y_remainder + amount) : ℚ) ∧
      (a.move_y tm amount).2 =
        (moveLoopY tm a.x (if 0 < pyRound (a.y_remainder + amount) then 1 else -1)
          (pyRound (a.y_remainder + amount)).natAbs a.y).2) := by
  refine ⟨?_, ?_, ?_, ?_⟩
  · intro h
    simp only [moveLoopX, h, if_true]
  · intro h
    simp only [moveLoopY, h, if_true]
  · intro h
    rw [move_x_eq_of_round_ne tm a amount h]
    exact ⟨rfl, rfl⟩
  · intro h
    rw [move_y_eq_of_round_ne tm a amount h]
    exact ⟨rfl, rfl⟩

/-- Witness for C3: on the all-wall map, at the origin with a one-pixel
move, the very first probe hits, the loop stops at once, and the remainder
keeps its pre-loop value. -/
theorem C3_collision_halts_witness :
    moveLoopX allWallMap 0 1 (0 + 1) 0 = (0, true) ∧
    moveLoopY allWallMap 0 1 (0 + 1) 0 = (0, true) ∧
    (((Actor.init 0 0).move_x allWallMap 1).1).x_remainder =
      (Actor.init 0 0).x_remainder + 1 -
        (pyRound ((Actor.init 0 0).x_remainder + 1) : ℚ) ∧
    ((Actor.init 0 0).move_x allWallMap 1).2 =
      (moveLoopX allWallMap (Actor.init 0 0).y
        (if 0 < pyRound ((Actor.init 0 0).x_remainder + 1) then 1 else -1)
        (pyRound ((Actor.init 0 0).x_remainder + 1)).natAbs
        (Actor.init 0 0).x).2 := by
  have h := C3_collision_halts allWallMap 0 0 1 0 (Actor.init 0 0) 1
  have hwall : ∀ u v : ℚ, check_collision allWallMap u v = true :=
    check_collision_allWallMap
  have hr : pyRound ((Actor.init 0 0).x_remainder + 1) ≠ 0 := by
    norm_num [Actor.init, pyRound, pyFloor]
  have hry : pyRound ((Actor.init 0 0).y_remainder + 1) ≠ 0 := by
    norm_num [Actor.init, pyRound, pyFloor]
  exact ⟨h.1 (hwall _ _), h.2.1 (hwall _ _), (h.2.2.1 hr).1, (h.2.2.1 hr).2⟩

/-- **C4**: Collision probe contract: `check_collision(x, y)` returns true
iff some grid cell in the inclusive column range
`⌊x / TILE_SIZE⌋ .. ⌊(x + TILE_SIZE - 1) / TILE_SIZE⌋` and the symmetric
inclusive row range holds a tile id classified as solid, and false
otherwise; the embedded probe is a pure function of its arguments. -/
theorem C4_collision_probe_contract (tm : Tilemap) (x y : ℚ) :
    check_collision tm x y = true ↔ overlaps_solid_spec tm x y :=
  check_collision_iff_spec tm x y

/-- **C5** counterexample: the claim ties the first pixel of movement to
the accumulated remainder reaching `±1`, but after three unobstructed calls
of `move_x(0.2)` the accumulated amount is only `3/5 < 1` and the actor has
already moved a full pixel (`x = 1`), because `round(0.6) = 1`. -/
theorem C5_counterexample :
    (runMoves freeMap (Actor.init 0 0)
        [MoveCall.mx (1/5), MoveCall.mx (1/5), MoveCall.mx (1/5)]).x = 1 ∧
    (1/5 : ℚ) + 1/5 + 1/5 < 1 := by
  constructor
  · norm_num [runMoves, Actor.move_x, moveLoopX, pyRound, pyFloor, Actor.init,
      check_collision, freeMap, EMPTY_TILE, WALL_TILES, intRange, TILE_SIZE,
      List.range_succ]
  · norm_num

/-- **C5** (amended): repeated small deltas accumulate in the remainder and
produce whole pixels of movement as soon as the accumulated remainder
rounds (half-to-even) to a nonzero step, which is then subtracted from the
remainder: an unobstructed `move_x` advances the position by exactly the
rounded whole-pixel amount; in particular five unobstructed calls of
`move_x(0.2)` move the actor by exactly 1 pixel in total, not 0. -/
theorem C5_subpixel_accumulation (tm : Tilemap)
    (hfree : ∀ u v : ℚ, check_collision tm u v = false)
    (a : Actor) (amount : ℚ) :
    ((a.move_x tm amount).1).x = a.x + (pyRound (a.x_remainder + amount) : ℚ) ∧
    (runMoves freeMap (Actor.init 0 0)
        (List.replicate 5 (MoveCall.mx (1/5)))).x = 1 := by
  refine ⟨move_x_free tm hfree a amount, ?_⟩
  norm_num [runMoves, Actor.move_x, moveLoopX, pyRound, pyFloor, Actor.init,
    check_collision, freeMap, EMPTY_TILE, WALL_TILES, intRange, TILE_SIZE,
    List.range_succ, List.replicate]

/-- Witness for C5 (amended): on the free map, one call of `move_x(1)` from
the origin advances `x` by the rounded pixel count, and the five-call
example holds. -/
theorem C5_subpixel_accumulation_witness :
    (((Actor.init 0 0).move_x freeMap 1).1).x =
      (Actor.init 0 0).x + (pyRound ((Actor.init 0 0).x_remainder + 1) : ℚ) ∧
    (runMoves freeMap (Actor.init 0 0)
        (List.replicate 5 (MoveCall.mx (1/5)))).x = 1 :=
  C5_subpixel_accumulation freeMap check_collision_freeMap (Actor.init 0 0) 1

/-- **C7**: Gravity tiers: if `vy < 0` and the jump key is held, `vy`
increases by exactly `0.6 * 0.7 * GRAVITY`; if `vy < 0` and the jump key is
not held, by exactly `0.7 * GRAVITY`; if `vy >= 0`, by exactly `GRAVITY`
regardless of the key state. -/
theorem C7_gravity_tiers (held : Bool) (p : Player) :
    (p.vy < 0 → held = true →
      (p.apply_gravity held).vy = p.vy + (3/5) * ((7/10) * GRAVITY)) ∧
    (p.vy < 0 → held = false →
      (p.apply_gravity held).vy = p.vy + (7/10) * GRAVITY) ∧
    (0 ≤ p.vy → (p.apply_gravity held).vy = p.vy + GRAVITY) := by
  refine ⟨?_, ?_, ?_⟩
  · intro hv hh
    subst hh
    simp only [Player.apply_gravity, if_pos hv, if_true]
    ring
  · intro hv hh
    subst hh
    simp only [Player.apply_gravity, if_pos hv, Bool.false_eq_true, if_false]
    ring
  · intro hv
    simp only [Player.apply_gravity, if_neg (not_lt.mpr hv)]

/-- Witness for C7: the three tiers evaluated at `vy = -1` (held and
released) and at `vy = 1`. -/
theorem C7_gravity_tiers_witness :
    (Player.apply_gravity true ⟨0, 0, 0, 0, 0, -1⟩).vy =
      -1 + (3/5) * ((7/10) * GRAVITY) ∧
    (Player.apply_gravity false ⟨0, 0, 0, 0, 0, -1⟩).vy =
      -1 + (7/10) * GRAVITY ∧
    (Player.apply_gravity true ⟨0, 0, 0, 0, 0, 1⟩).vy = 1 + GRAVITY :=
  ⟨(C7_gravity_tiers true ⟨0, 0, 0, 0, 0, -1⟩).1 (by norm_num) rfl,
   (C7_gravity_tiers false ⟨0, 0, 0, 0, 0, -1⟩).2.1 (by norm_num) rfl,
   (C7_gravity_tiers true ⟨0, 0, 0, 0, 0, 1⟩).2.2 (by norm_num)⟩

/-- **C8**: Jump gating: `jump()` sets `vy` to exactly `-JUMP_POWER` when
the collision probe one tile-height below the current position reports
solid, and leaves `vy` unchanged when that probe reports no solid tile. -/
theorem C8_jump_gating (tm : Tilemap) (p : Player) :
    (check_collision tm p.x (p.y + TILE_SIZE) = true →
      (p.jump tm).vy = -JUMP_POWER) ∧
    (check_collision tm p.x (p.y + TILE_SIZE) = false →
      (p.jump tm).vy = p.vy) := by
  constructor
  · intro h
    simp only [Player.jump, h, if_true]
  · intro h
    simp only [Player.jump, h, Bool.false_eq_true, if_false]

/-- Witness for C8: a player standing on the solid row 1 jumps with impulse
`-JUMP_POWER`; a player in empty space keeps its `vy`. -/
theorem C8_jump_gating_witness :
    (Player.jump floorRow1Map ⟨0, 0, 0, 0, 0, 0⟩).vy = -JUMP_POWER ∧
    (Player.jump freeMap ⟨0, 0, 0, 0, 0, 5⟩).vy = 5 :=
  ⟨(C8_jump_gating floorRow1Map ⟨0, 0, 0, 0, 0, 0⟩).1
    (by norm_num [check_collision, pyFloor, intRange, TILE_SIZE, floorRow1Map,
      EMPTY_TILE, List.range_succ, WALL_TILES]),
   (C8_jump_gating freeMap ⟨0, 0, 0, 0, 0, 5⟩).2 (check_collision_freeMap _ _)⟩

end Platformer
